import Mathlib

/-!
Verification of the lead-generation pipeline.

Shallow embedding of the acquisition/enrichment backend:
* `checkAndIncrementDailyLimit` — the daily quota guard
  (src/backend/src/services/ai/geminiService.ts, lines 8-19);
* the retry loop, heuristic fallback, and `analyzeLead`
  (same file, lines 117-330);
* `normalizeJsonLike`, `repairCommonJsonIssues`, `extractJSON`
  (same file, lines 41-115), over a model of `JSON.parse`;
* the intra-batch deduplicator `uniqueLeads` and the `all-sources`
  orchestration route (server source, lines 463-657).

JavaScript numbers are modelled as rationals (`ℚ`); the values the claims
touch are small integers, far from any floating-point rounding.
Mutable module-level state (the quota counter) is passed explicitly.
-/

/-! ### Characters used by the string machinery -/

def lbrace : Char := Char.ofNat 123

def rbrace : Char := Char.ofNat 125

def lbracket : Char := Char.ofNat 91

def rbracket : Char := Char.ofNat 93

def btick : Char := Char.ofNat 96

def dquote : Char := Char.ofNat 34

def squote : Char := Char.ofNat 39

/-! ### Quota Guard

Source (geminiService.ts lines 5-19): module-level mutable pair
`dailyWindowDate` / `dailyRequestCount`, reset when the UTC day string
changes, compared against `SAMBA_DAILY_LIMIT`.
-/

structure QuotaState where
  dailyWindowDate : String
  dailyRequestCount : ℕ
deriving DecidableEq, Repr

/-- `checkAndIncrementDailyLimit` (lines 8-19): if `today` differs from the
stored day, reset the count and store the new day; return `false` when the
count has reached the limit, otherwise increment and return `true`. -/
def quotaStep (limit : ℕ) (st : QuotaState) : Bool × QuotaState :=
  if st.dailyRequestCount ≥ limit then (false, st)
  else (true, ⟨st.dailyWindowDate, st.dailyRequestCount + 1⟩)

def checkAndIncrementDailyLimit (limit : ℕ) (today : String) (st : QuotaState) :
    Bool × QuotaState :=
  quotaStep limit (if today ≠ st.dailyWindowDate then ⟨today, 0⟩ else st)

/-- A sequence of `n` guard calls on one fixed calendar day; returns how many
calls answered `true`, together with the final state. -/
def quotaRun (limit : ℕ) (today : String) : QuotaState → ℕ → ℕ × QuotaState
  | st, 0 => (0, st)
  | st, n + 1 =>
    ((if (checkAndIncrementDailyLimit limit today st).1 then 1 else 0) +
        (quotaRun limit today (checkAndIncrementDailyLimit limit today st).2 n).1,
      (quotaRun limit today (checkAndIncrementDailyLimit limit today st).2 n).2)

/-- The count that the guard effectively compares against the limit on
`today`: the stored count if the stored day is `today`, else `0`. -/
def effCount (today : String) (st : QuotaState) : ℕ :=
  if st.dailyWindowDate = today then st.dailyRequestCount else 0

/-! ### Retry loop

Source (geminiService.ts lines 213-261): `for (attempt = 0; attempt <=
maxRetries; attempt++)` — one `fetch` per iteration; `break` on `res.ok`;
`continue` only on status 429 while `attempt < maxRetries`; any other
non-ok status (or a 429 on the final attempt) throws.  The model maps each
attempt index to the external service's behaviour and counts requests.
`FetchOutcome.ok body` carries `data?.choices?.[0]?.message?.content`
(`none` when that path is absent).
-/

inductive FetchOutcome where
  | ok (body : Option String)
  | rateLimited
  | httpError (status : ℕ)
deriving DecidableEq, Repr

/-- The loop body, with `rem = maxRetries - attempt` remaining retries.
Returns the number of requests issued and either the successful body or the
thrown status. -/
def retryLoopAux (responses : ℕ → FetchOutcome) : ℕ → ℕ → ℕ × Except ℕ (Option String)
  | attempt, 0 =>
    match responses attempt with
    | .ok b => (1, .ok b)
    | .rateLimited => (1, .error 429)
    | .httpError s => (1, .error s)
  | attempt, rem + 1 =>
    match responses attempt with
    | .ok b => (1, .ok b)
    | .rateLimited =>
      let r := retryLoopAux responses (attempt + 1) rem
      (r.1 + 1, r.2)
    | .httpError s => (1, .error s)

def retryLoop (maxRetries : ℕ) (responses : ℕ → FetchOutcome) :
    ℕ × Except ℕ (Option String) :=
  retryLoopAux responses 0 maxRetries

/-! ### JSON values -/

inductive Json where
  | null
  | bool (b : Bool)
  | num (q : ℚ)
  | str (s : String)
  | arr (elems : List Json)
  | obj (fields : List (String × Json))

/-- Last binding wins, as for duplicate keys in a JavaScript object. -/
def lookupLastField : List (String × Json) → String → Option Json
  | [], _ => none
  | (k, v) :: rest, key =>
    match lookupLastField rest key with
    | some r => some r
    | none => if k = key then some v else none

def Json.getField (j : Json) (key : String) : Option Json :=
  match j with
  | .obj fields => lookupLastField fields key
  | _ => none

def Json.asNum (j : Json) : Option ℚ :=
  match j with
  | .num q => some q
  | _ => none

def Json.asStr (j : Json) : Option String :=
  match j with
  | .str s => some s
  | _ => none

/-- The `score` field of a qualification analysis, when numeric. -/
def scoreOf (j : Json) : Option ℚ := (j.getField "score").bind Json.asNum

/-- The `leadType` field of a qualification analysis, when a string. -/
def leadTypeOf (j : Json) : Option String := (j.getField "leadType").bind Json.asStr

/-- The `conversionProbability` field, when numeric. -/
def probOf (j : Json) : Option ℚ :=
  (j.getField "conversionProbability").bind Json.asNum

/-! ### Lead input and the deterministic heuristic fallback

Source (geminiService.ts lines 117-128 for the input shape; the fallback
object appears twice, identically: lines 150-168 — quota branch — and
lines 310-328 — catch branch).
-/

structure LeadData where
  businessName : String
  category : Option String := none
  rating : Option ℚ := none
  reviewCount : Option ℚ := none
  website : Option String := none
  address : Option String := none
  priceLevel : Option String := none
  description : Option String := none
  openingHours : Option (List String) := none
  attributes : Option (List String) := none
deriving DecidableEq, Repr

/-- JavaScript `Boolean(leadData.website)`: `undefined`, `null` and the
empty string are falsy. -/
def truthyStr : Option String → Bool
  | none => false
  | some s => s ≠ ""

def apos : String := String.mk [squote]

/-- `rating >= 4 && reviews >= 50 && !hasWebsite` (line 148 / 308). -/
def isHotHeur (rating reviews : ℚ) (hasWebsite : Bool) : Bool :=
  decide (4 ≤ rating) && decide (50 ≤ reviews) && !hasWebsite

def jstrs (l : List String) : Json := Json.arr (l.map Json.str)

/-- The deterministic heuristic fallback analysis (lines 150-168, repeated
verbatim at lines 310-328). -/
def heuristicFallbackJson (rating reviews : ℚ) (hasWebsite : Bool) : Json :=
  let isHot := isHotHeur rating reviews hasWebsite
  Json.obj
    [ ("score", Json.num (if isHot then 85 else 60)),
      ("leadType", Json.str (if isHot then "hot" else if hasWebsite then "warm" else "cold")),
      ("reason", Json.str (if isHot then "Strong Google presence but no website."
        else if hasWebsite then "Business is established but can be improved."
        else "Weak or limited online signals.")),
      ("whatToSell", if hasWebsite then jstrs ["Website Redesign", "Performance Marketing"]
        else jstrs ["Website Development", "SEO", "Google Leads CRM"]),
      ("firstMessageHook", Json.str (if hasWebsite
        then "We help local businesses convert more visitors into customers."
        else "Loved your Google reviews—noticed you don" ++ apos ++ "t have a website yet.")),
      ("followUpMessage", Json.str
        "Checking in to see if you received my previous message regarding your business growth."),
      ("conversionProbability", Json.num (if isHot then 40 else 15)),
      ("painPoints", if hasWebsite then jstrs ["Outdated design", "Slow loading"]
        else jstrs ["No online presence", "Missing local leads"]),
      ("idealSolution", Json.str (if hasWebsite then "Complete website overhaul and SEO"
        else "New conversion-focused website")) ]

/-- The fallback as `analyzeLead` invokes it: `rating ?? 0`,
`reviewCount ?? 0`, `Boolean(website)` (lines 145-147 / 305-307). -/
def fallbackFor (ld : LeadData) : Json :=
  heuristicFallbackJson (ld.rating.getD 0) (ld.reviewCount.getD 0) (truthyStr ld.website)

/-- The zero-confidence analysis of the missing-credential branch
(lines 130-142). -/
def notConfiguredAnalysis : Json :=
  Json.obj
    [ ("score", Json.num 0),
      ("leadType", Json.str "cold"),
      ("reason", Json.str "SAMBA_API_KEY not configured"),
      ("whatToSell", jstrs []),
      ("firstMessageHook", Json.str ""),
      ("followUpMessage", Json.str ""),
      ("conversionProbability", Json.num 0),
      ("painPoints", jstrs []),
      ("idealSolution", Json.str "") ]

/-! ### String scanners for `normalizeJsonLike` (lines 41-76)

Each JavaScript regex replacement is rendered as a left-to-right scanner
with the same match/advance discipline (on a match, scanning resumes after
the replacement; otherwise it advances one character).
-/

/-- The JavaScript `\s` class (also used by `String.prototype.trim`). -/
def isJsWsChar (c : Char) : Bool :=
  c = Char.ofNat 32 || c = Char.ofNat 9 || c = Char.ofNat 10 || c = Char.ofNat 11 ||
  c = Char.ofNat 12 || c = Char.ofNat 13 || c = Char.ofNat 0xA0 || c = Char.ofNat 0x1680 ||
  (0x2000 ≤ c.toNat && c.toNat ≤ 0x200A) || c = Char.ofNat 0x2028 || c = Char.ofNat 0x2029 ||
  c = Char.ofNat 0x202F || c = Char.ofNat 0x205F || c = Char.ofNat 0x3000 ||
  c = Char.ofNat 0xFEFF

theorem length_dropWhile_le' (p : Char → Bool) (l : List Char) :
    (l.dropWhile p).length ≤ l.length := by
  induction l with
  | nil => simp [List.dropWhile]
  | cons c rest ih =>
    by_cases h : p c
    · simp [List.dropWhile, h]
      omega
    · simp [List.dropWhile, h]

/-- `cleaned.replace(/^﻿/, '')` (line 45): drop one leading BOM. -/
def stripLeadBOM (l : List Char) : List Char :=
  match l with
  | c :: rest => if c = Char.ofNat 0xFEFF then rest else l
  | [] => []

/-- `cleaned.replace(/^[\x00-\x1F\x7F]+/, '')` (line 46). -/
def dropLeadControls (l : List Char) : List Char :=
  l.dropWhile (fun c => c.toNat ≤ 0x1F || c.toNat = 0x7F)

/-- Case-insensitive literal prefix match; returns the remainder. -/
def ciPrefixRest (pat l : List Char) : Option (List Char) :=
  match pat, l with
  | [], rest => some rest
  | _ :: _, [] => none
  | p :: ps, c :: cs => if c.toLower = p.toLower then ciPrefixRest ps cs else none

theorem ciPrefixRest_length_le (pat : List Char) :
    ∀ l r, ciPrefixRest pat l = some r → r.length ≤ l.length := by
  induction pat with
  | nil => intro l r h; simp [ciPrefixRest] at h; simp [h]
  | cons p ps ih =>
    intro l r h
    match l with
    | [] => simp [ciPrefixRest] at h
    | c :: cs =>
      simp only [ciPrefixRest] at h
      split at h
      · have := ih cs r h
        simp; omega
      · exact absurd h (by simp)

/-- The optional language tag `(?:json|JSON|js|javascript)?` with the `i`
flag; alternatives tried left to right, empty match allowed. -/
def tryLangTag (l : List Char) : List Char :=
  match ciPrefixRest "json".data l with
  | some r => r
  | none =>
    match ciPrefixRest "js".data l with
    | some r => r
    | none =>
      match ciPrefixRest "javascript".data l with
      | some r => r
      | none => l

theorem tryLangTag_length_le (l : List Char) : (tryLangTag l).length ≤ l.length := by
  unfold tryLangTag
  split
  · exact ciPrefixRest_length_le _ _ _ (by assumption)
  · split
    · exact ciPrefixRest_length_le _ _ _ (by assumption)
    · split
      · exact ciPrefixRest_length_le _ _ _ (by assumption)
      · exact le_refl _

/-- Global replace of ``/```(?:json|JSON|js|javascript)?\s*\n?/gi`` with `''`
(line 49).  `\s*` is greedy and `\s` contains `\n`, so after the fence and
optional tag all following whitespace is consumed.  The fuel argument is a
structural bound on the scan; every step shortens the text, so a fuel of
the text's length never runs out. -/
def stripFencesAF : ℕ → List Char → List Char
  | 0, l => l
  | _ + 1, [] => []
  | fuel + 1, c1 :: rest1 =>
    match rest1 with
    | c2 :: c3 :: rest =>
      if c1 = btick && c2 = btick && c3 = btick then
        stripFencesAF fuel ((tryLangTag rest).dropWhile isJsWsChar)
      else c1 :: stripFencesAF fuel rest1
    | _ => c1 :: stripFencesAF fuel rest1

def stripFencesA (l : List Char) : List Char := stripFencesAF l.length l

/-- Does ``\n?```\s*$`` match here, extending to the end of the string? -/
def isEndFenceB (l : List Char) : Bool :=
  match l with
  | c :: rest =>
    if c = Char.ofNat 10 then
      match rest with
      | b1 :: b2 :: b3 :: r => b1 = btick && b2 = btick && b3 = btick && r.all isJsWsChar
      | _ => false
    else
      match l with
      | b1 :: b2 :: b3 :: r => b1 = btick && b2 = btick && b3 = btick && r.all isJsWsChar
      | _ => false
  | [] => false

/-- `cleaned.replace(/\n?```\s*$/g, '')` (line 50): remove the earliest
suffix of that shape. -/
def stripFenceEndB : List Char → List Char
  | [] => []
  | c :: rest => if isEndFenceB (c :: rest) then [] else c :: stripFenceEndB rest

/-- `cleaned.replace(/^```[a-zA-Z]*\s*/g, '')` (line 51): anchored at the
start, applied once. -/
def stripFenceStartC (l : List Char) : List Char :=
  match l with
  | b1 :: b2 :: b3 :: rest =>
    if b1 = btick && b2 = btick && b3 = btick then
      (rest.dropWhile Char.isAlpha).dropWhile isJsWsChar
    else l
  | _ => l

/-- `cleaned.replace(/\s*```$/g, '')` (line 52): remove the earliest suffix
consisting of whitespace followed by exactly three backticks at the end. -/
def stripFenceEndD : List Char → List Char
  | [] => []
  | c :: rest =>
    if (c :: rest).dropWhile isJsWsChar == [btick, btick, btick] then []
    else c :: stripFenceEndD rest

/-- `String.prototype.trim` (line 54). -/
def jsTrim (l : List Char) : List Char :=
  ((l.dropWhile isJsWsChar).reverse.dropWhile isJsWsChar).reverse

/-- `String.prototype.indexOf` for a single character. -/
def firstIdxOf (l : List Char) (c : Char) : Option ℕ :=
  match l with
  | [] => none
  | x :: rest => if x = c then some 0 else (firstIdxOf rest c).map (· + 1)

/-- `String.prototype.lastIndexOf` for a single character. -/
def lastIdxOf (l : List Char) (c : Char) : Option ℕ :=
  (firstIdxOf l.reverse c).map (fun i => l.length - 1 - i)

/-- `cleaned.replace(/[""]/g, '"')` (line 68).  In the source the character
class holds two straight double quotes (not curly ones), so this replaces a
straight quote by itself: the identity on every character. -/
def normDoubleQuotes (l : List Char) : List Char :=
  l.map (fun c => if c = dquote then dquote else c)

/-- `cleaned.replace(/['']/g, "'")` (line 70).  Likewise, the class holds
two straight single quotes: the identity. -/
def normSingleQuotes (l : List Char) : List Char :=
  l.map (fun c => if c = squote then squote else c)

/-- Global replace of `/,\s*([}\]])/g` with `'$1'` (lines 73 and 85):
drop a comma (and the whitespace run) directly preceding `}` or `]`. -/
def rtcAuxF : ℕ → List Char → List Char
  | 0, l => l
  | _ + 1, [] => []
  | fuel + 1, c :: rest =>
    if c = ',' then
      match rest.dropWhile isJsWsChar with
      | d :: rest2 =>
        if d = rbrace || d = rbracket then d :: rtcAuxF fuel rest2
        else c :: rtcAuxF fuel rest
      | [] => c :: rtcAuxF fuel rest
    else c :: rtcAuxF fuel rest

def rtcAux (l : List Char) : List Char := rtcAuxF l.length l

/-- The text after fence stripping, control stripping and trimming — the
value in which `normalizeJsonLike` looks for the `{` … `}` span. -/
def strippedText (text : List Char) : List Char :=
  jsTrim (stripFenceEndD (stripFenceStartC (stripFenceEndB (stripFencesA
    (dropLeadControls (stripLeadBOM text))))))

/-- `normalizeJsonLike` (lines 41-76). -/
def normalizeJsonLike (text : List Char) : Except String (List Char) :=
  match firstIdxOf (strippedText text) lbrace, lastIdxOf (strippedText text) rbrace with
  | some s, some e =>
    if e ≤ s then Except.error "No complete JSON block found in LLM response"
    else
      Except.ok (rtcAux (normSingleQuotes (normDoubleQuotes
        (((strippedText text).drop s).take (e + 1 - s)))))
  | some _, none => Except.error "No complete JSON block found in LLM response"
  | none, _ => Except.error "No complete JSON block found in LLM response"

/-! ### `repairCommonJsonIssues` (lines 78-91) -/

def isLineTermChar (c : Char) : Bool :=
  c = Char.ofNat 10 || c = Char.ofNat 13 || c = Char.ofNat 0x2028 || c = Char.ofNat 0x2029

/-- `fixed.replace(/\/\/.*$/gm, "")` (line 82): drop from `//` up to (not
including) the next line terminator. -/
def stripLineCommentsF : ℕ → List Char → List Char
  | 0, l => l
  | _ + 1, [] => []
  | fuel + 1, c1 :: rest1 =>
    match rest1 with
    | c2 :: rest =>
      if c1 = '/' && c2 = '/' then
        stripLineCommentsF fuel (rest.dropWhile (fun c => !isLineTermChar c))
      else c1 :: stripLineCommentsF fuel rest1
    | [] => [c1]

def stripLineComments (l : List Char) : List Char := stripLineCommentsF l.length l

/-- Scan for the first `*/`; return the remainder after it, if any. -/
def dropToBlockEndF : ℕ → List Char → Option (List Char)
  | 0, _ => none
  | _ + 1, [] => none
  | fuel + 1, c1 :: rest1 =>
    match rest1 with
    | c2 :: rest =>
      if c1 = '*' && c2 = '/' then some rest else dropToBlockEndF fuel rest1
    | [] => none

def dropToBlockEnd (l : List Char) : Option (List Char) := dropToBlockEndF l.length l

/-- `fixed.replace(/\/\*[\s\S]*?\*\//g, "")` (line 82): drop non-greedy
block comments; an unterminated `/*` does not match. -/
def stripBlockCommentsF : ℕ → List Char → List Char
  | 0, l => l
  | _ + 1, [] => []
  | fuel + 1, c1 :: rest1 =>
    match rest1 with
    | c2 :: rest =>
      if c1 = '/' && c2 = '*' then
        match dropToBlockEnd rest with
        | some rem => stripBlockCommentsF fuel rem
        | none => c1 :: stripBlockCommentsF fuel rest1
      else c1 :: stripBlockCommentsF fuel rest1
    | [] => [c1]

def stripBlockComments (l : List Char) : List Char := stripBlockCommentsF l.length l

def isWordChar (c : Char) : Bool := c.isAlphanum || c = '_'

/-- `fixed.replace(/([,{]\s*)([A-Za-z0-9_]+)\s*:/g, '$1"$2":')` (line 88):
best-effort quoting of bare object keys.  The whitespace between the key and
the colon is outside both groups, hence dropped by the replacement. -/
def quoteBareKeysF : ℕ → List Char → List Char
  | 0, l => l
  | _ + 1, [] => []
  | fuel + 1, c :: rest =>
    if c = ',' || c = lbrace then
      match (rest.dropWhile isJsWsChar).takeWhile isWordChar,
            ((rest.dropWhile isJsWsChar).dropWhile isWordChar).dropWhile isJsWsChar with
      | w :: ws, colon :: rest2 =>
        if colon = ':' then
          c :: (rest.takeWhile isJsWsChar ++ (dquote :: (w :: ws) ++
            (dquote :: ':' :: quoteBareKeysF fuel rest2)))
        else c :: quoteBareKeysF fuel rest
      | _, _ => c :: quoteBareKeysF fuel rest
    else c :: quoteBareKeysF fuel rest

def quoteBareKeys (l : List Char) : List Char := quoteBareKeysF l.length l

/-- `repairCommonJsonIssues` (lines 78-91). -/
def repairCommonJsonIssues (l : List Char) : List Char :=
  quoteBareKeys (rtcAux (stripBlockComments (stripLineComments l)))

/-! ### A model of `JSON.parse` (ECMA-404 grammar)

Strict JSON: double-quoted strings with the standard escapes, numbers,
`true`/`false`/`null`, arrays, objects; no comments, no trailing commas,
no single quotes, no bare keys.  Recursion is guarded by a fuel argument
that `jsonParse` instantiates generously from the input length.
-/

def skipWsJson (l : List Char) : List Char :=
  l.dropWhile (fun c =>
    c = Char.ofNat 32 || c = Char.ofNat 9 || c = Char.ofNat 10 || c = Char.ofNat 13)

def escChar (e : Char) : Option Char :=
  if e = dquote then some dquote
  else if e = '\\' then some '\\'
  else if e = '/' then some '/'
  else if e = 'b' then some (Char.ofNat 8)
  else if e = 'f' then some (Char.ofNat 12)
  else if e = 'n' then some (Char.ofNat 10)
  else if e = 'r' then some (Char.ofNat 13)
  else if e = 't' then some (Char.ofNat 9)
  else none

def hexVal (c : Char) : Option ℕ :=
  if c.isDigit then some (c.toNat - 48)
  else if 'a' ≤ c ∧ c ≤ 'f' then some (c.toNat - 87)
  else if 'A' ≤ c ∧ c ≤ 'F' then some (c.toNat - 55)
  else none

/-- Body of a JSON string, after the opening quote; returns the decoded
characters and the remainder after the closing quote. -/
def parseStringBody : List Char → Except String (List Char × List Char)
  | [] => Except.error "unterminated string"
  | c :: rest =>
    if c = dquote then Except.ok ([], rest)
    else if c = '\\' then
      match rest with
      | [] => Except.error "bad escape"
      | e :: rest2 =>
        if e = 'u' then
          match rest2 with
          | h1 :: h2 :: h3 :: h4 :: rest3 =>
            match hexVal h1, hexVal h2, hexVal h3, hexVal h4 with
            | some a, some b, some c2, some d =>
              (parseStringBody rest3).map
                (fun p => (Char.ofNat (((a * 16 + b) * 16 + c2) * 16 + d) :: p.1, p.2))
            | _, _, _, _ => Except.error "bad unicode escape"
          | _ => Except.error "bad unicode escape"
        else
          match escChar e with
          | some ec => (parseStringBody rest2).map (fun p => (ec :: p.1, p.2))
          | none => Except.error "bad escape"
    else if c.toNat < 0x20 then Except.error "control character in string"
    else (parseStringBody rest).map (fun p => (c :: p.1, p.2))

def digitsToNat (ds : List Char) : ℕ :=
  ds.foldl (fun a c => a * 10 + (c.toNat - 48)) 0

/-- The fraction part `.digits`, if present (`none` when absent). -/
def parseFracPart (l : List Char) : Except String (Option ℚ × List Char) :=
  match l with
  | c :: rest =>
    if c = '.' then
      match rest.takeWhile Char.isDigit with
      | [] => Except.error "bad number"
      | ds => Except.ok (some ((digitsToNat ds : ℚ) / (10 : ℚ) ^ ds.length),
          rest.dropWhile Char.isDigit)
    else Except.ok (none, l)
  | [] => Except.ok (none, l)

/-- The exponent part `(e|E)(+|-)?digits`, if present. -/
def parseExpPart (l : List Char) : Except String (ℤ × List Char) :=
  match l with
  | c :: rest =>
    if c = 'e' || c = 'E' then
      let signed : ℤ × List Char :=
        match rest with
        | s :: r => if s = '+' then (1, r) else if s = '-' then (-1, r) else (1, rest)
        | [] => (1, rest)
      match (signed.2).takeWhile Char.isDigit with
      | [] => Except.error "bad exponent"
      | ds => Except.ok (signed.1 * (digitsToNat ds : ℤ), (signed.2).dropWhile Char.isDigit)
    else Except.ok (0, l)
  | [] => Except.ok (0, l)

/-- A JSON number `-?digits(.digits)?((e|E)(+|-)?digits)?`, valued in ℚ.
The degenerate plain-integer shape avoids rational arithmetic so that the
kernel can evaluate it on literals. -/
def parseNumber (l : List Char) : Except String (ℚ × List Char) :=
  let signed : Bool × List Char :=
    match l with
    | c :: rest => if c = '-' then (true, rest) else (false, l)
    | [] => (false, l)
  match signed.2.takeWhile Char.isDigit with
  | [] => Except.error "bad number"
  | ds =>
    match parseFracPart (signed.2.dropWhile Char.isDigit) with
    | Except.error e => Except.error e
    | Except.ok (fracOpt, r1) =>
      match parseExpPart r1 with
      | Except.error e => Except.error e
      | Except.ok (ex, r2) =>
        let withFrac : ℚ :=
          match fracOpt with
          | none => (digitsToNat ds : ℚ)
          | some f => (digitsToNat ds : ℚ) + f
        let scaled : ℚ := if ex = 0 then withFrac else withFrac * (10 : ℚ) ^ ex
        Except.ok (if signed.1 then -scaled else scaled, r2)

mutual

def parseValueF : ℕ → List Char → Except String (Json × List Char)
  | 0, _ => Except.error "input too deeply nested"
  | fuel + 1, l =>
    match skipWsJson l with
    | [] => Except.error "unexpected end of input"
    | c :: rest =>
      if c = lbrace then parseObjectF fuel rest
      else if c = lbracket then parseArrayF fuel rest
      else if c = dquote then
        (parseStringBody rest).map (fun p => (Json.str (String.mk p.1), p.2))
      else if c = 't' then
        match rest with
        | 'r' :: 'u' :: 'e' :: r => Except.ok (Json.bool true, r)
        | _ => Except.error "bad literal"
      else if c = 'f' then
        match rest with
        | 'a' :: 'l' :: 's' :: 'e' :: r => Except.ok (Json.bool false, r)
        | _ => Except.error "bad literal"
      else if c = 'n' then
        match rest with
        | 'u' :: 'l' :: 'l' :: r => Except.ok (Json.null, r)
        | _ => Except.error "bad literal"
      else if c = '-' || c.isDigit then
        (parseNumber (c :: rest)).map (fun p => (Json.num p.1, p.2))
      else Except.error "unexpected token"

def parseObjectF : ℕ → List Char → Except String (Json × List Char)
  | 0, _ => Except.error "input too deeply nested"
  | fuel + 1, l =>
    match skipWsJson l with
    | c :: rest =>
      if c = rbrace then Except.ok (Json.obj [], rest)
      else parseMembersF fuel (c :: rest) []
    | [] => Except.error "unterminated object"

def parseMembersF : ℕ → List Char → List (String × Json) → Except String (Json × List Char)
  | 0, _, _ => Except.error "input too deeply nested"
  | fuel + 1, l, acc =>
    match skipWsJson l with
    | c :: rest =>
      if c = dquote then
        match parseStringBody rest with
        | Except.error e => Except.error e
        | Except.ok (key, r1) =>
          match skipWsJson r1 with
          | colon :: r2 =>
            if colon = ':' then
              match parseValueF fuel r2 with
              | Except.error e => Except.error e
              | Except.ok (v, r3) =>
                match skipWsJson r3 with
                | sep :: r4 =>
                  if sep = ',' then parseMembersF fuel r4 (acc ++ [(String.mk key, v)])
                  else if sep = rbrace then
                    Except.ok (Json.obj (acc ++ [(String.mk key, v)]), r4)
                  else Except.error "expected comma or closing brace"
                | [] => Except.error "unterminated object"
            else Except.error "expected colon"
          | [] => Except.error "expected colon"
      else Except.error "expected string key"
    | [] => Except.error "unterminated object"

def parseArrayF : ℕ → List Char → Except String (Json × List Char)
  | 0, _ => Except.error "input too deeply nested"
  | fuel + 1, l =>
    match skipWsJson l with
    | c :: rest =>
      if c = rbracket then Except.ok (Json.arr [], rest)
      else parseElemsF fuel (c :: rest) []
    | [] => Except.error "unterminated array"

def parseElemsF : ℕ → List Char → List Json → Except String (Json × List Char)
  | 0, _, _ => Except.error "input too deeply nested"
  | fuel + 1, l, acc =>
    match parseValueF fuel l with
    | Except.error e => Except.error e
    | Except.ok (v, r1) =>
      match skipWsJson r1 with
      | sep :: r2 =>
        if sep = ',' then parseElemsF fuel r2 (acc ++ [v])
        else if sep = rbracket then Except.ok (Json.arr (acc ++ [v]), r2)
        else Except.error "expected comma or closing bracket"
      | [] => Except.error "unterminated array"

end

/-- The model of `JSON.parse`: parse one value, then require only
whitespace to remain. -/
def jsonParse (l : List Char) : Except String Json :=
  match parseValueF (2 * l.length + 4) l with
  | Except.error e => Except.error e
  | Except.ok (j, rest) =>
    if skipWsJson rest = [] then Except.ok j
    else Except.error "unexpected trailing characters"

/-- `extractJSON` (lines 98-115): normalize, strict parse, and on failure
one repaired re-parse.  A failure of `normalizeJsonLike` itself propagates
without a repair attempt (the `try` wraps only the parse). -/
def extractJSON (text : List Char) : Except String Json :=
  match normalizeJsonLike text with
  | Except.error e => Except.error e
  | Except.ok raw =>
    match jsonParse raw with
    | Except.ok j => Except.ok j
    | Except.error _ => jsonParse (repairCommonJsonIssues raw)

/-! ### `analyzeLead` (lines 117-330)

Configuration constants (`SAMBA_API_KEY`, `SAMBA_DAILY_LIMIT`,
`SAMBA_MAX_RETRIES`) are environment-dependent in the source and are
gathered in `SambaConfig`; defaults as in the source.  The quota counter is
threaded explicitly.  The `requests` field counts `fetch` calls made to
the external endpoint during the call.
-/

structure SambaConfig where
  apiKey : String := "194a4a17-719f-4a4b-99da-6304f5c3ee0f"
  dailyLimit : ℕ := 240
  maxRetries : ℕ := 3
deriving DecidableEq, Repr

structure AnalyzeResult where
  analysis : Json
  state : QuotaState
  requests : ℕ

/-- `analyzeLead`: missing-credential early return; quota-guard fallback;
retry loop; empty-body check (`if (!rawText)` — the empty string is falsy);
`extractJSON`; every failure inside the `try` lands in the `catch`, which
returns the deterministic heuristic fallback. -/
def analyzeLead (cfg : SambaConfig) (today : String) (st : QuotaState)
    (ld : LeadData) (responses : ℕ → FetchOutcome) : AnalyzeResult :=
  if cfg.apiKey = "" then ⟨notConfiguredAnalysis, st, 0⟩
  else if (checkAndIncrementDailyLimit cfg.dailyLimit today st).1 = false then
    ⟨fallbackFor ld, (checkAndIncrementDailyLimit cfg.dailyLimit today st).2, 0⟩
  else
    match (retryLoop cfg.maxRetries responses).2 with
    | Except.error _ =>
      ⟨fallbackFor ld, (checkAndIncrementDailyLimit cfg.dailyLimit today st).2,
        (retryLoop cfg.maxRetries responses).1⟩
    | Except.ok none =>
      ⟨fallbackFor ld, (checkAndIncrementDailyLimit cfg.dailyLimit today st).2,
        (retryLoop cfg.maxRetries responses).1⟩
    | Except.ok (some raw) =>
      if raw = "" then
        ⟨fallbackFor ld, (checkAndIncrementDailyLimit cfg.dailyLimit today st).2,
          (retryLoop cfg.maxRetries responses).1⟩
      else
        match extractJSON raw.data with
        | Except.error _ =>
          ⟨fallbackFor ld, (checkAndIncrementDailyLimit cfg.dailyLimit today st).2,
            (retryLoop cfg.maxRetries responses).1⟩
        | Except.ok j =>
          ⟨j, (checkAndIncrementDailyLimit cfg.dailyLimit today st).2,
            (retryLoop cfg.maxRetries responses).1⟩

/-! ### Intra-batch deduplication (server source, lines 561-573)

`uniqueLeads = allLeads.filter(...)` with two grow-only sets of seen keys;
keys are recorded only for candidates that survive the filter.
-/

structure CombinedLead where
  businessName : String
  fullName : String
  phone : Option String := none
  email : Option String := none
  website : Option String := none
  address : Option String := none
  city : Option String := none
  rating : Option ℚ := none
  reviewCount : Option ℚ := none
  category : Option String := none
  source : String
deriving DecidableEq, Repr

/-- `lead.phone?.replace(/\D/g, '') || ''` (line 564): digits only, the
empty string when the phone is absent or holds no digits. -/
def phoneKey (l : CombinedLead) : String :=
  match l.phone with
  | none => ""
  | some s => String.mk (s.data.filter Char.isDigit)

/-- `lead.businessName.toLowerCase()` (line 565), as the per-character case
fold over the string's characters. -/
def nameKey (l : CombinedLead) : String := String.mk (l.businessName.data.map Char.toLower)

/-- `if (phoneKey && seenPhones.has(phoneKey)) return false` (line 567). -/
def phoneDup (seenPhones : List String) (l : CombinedLead) : Bool :=
  phoneKey l ≠ "" && seenPhones.contains (phoneKey l)

/-- `if (seenNames.has(nameKey)) return false` (line 568). -/
def nameDup (seenNames : List String) (l : CombinedLead) : Bool :=
  seenNames.contains (nameKey l)

/-- `if (phoneKey) seenPhones.add(phoneKey)` (line 570). -/
def addPhone (seenPhones : List String) (l : CombinedLead) : List String :=
  if phoneKey l ≠ "" then phoneKey l :: seenPhones else seenPhones

/-- One pass of the filter with the two seen-key sets; keys are recorded
only for surviving candidates (lines 563-573). -/
def uniqueLeadsAux (seenPhones seenNames : List String) :
    List CombinedLead → List CombinedLead
  | [] => []
  | l :: ls =>
    if phoneDup seenPhones l then uniqueLeadsAux seenPhones seenNames ls
    else if nameDup seenNames l then uniqueLeadsAux seenPhones seenNames ls
    else l :: uniqueLeadsAux (addPhone seenPhones l) (nameKey l :: seenNames) ls

/-- The deduplication filter (lines 561-573). -/
def uniqueLeads (ls : List CombinedLead) : List CombinedLead :=
  uniqueLeadsAux [] [] ls

/-! ### The `all-sources` orchestration (server source, lines 450-657)

`Promise.allSettled` over the four adapters; each settled outcome is either
`fulfilled` with a list or `rejected` with a reason.  The per-adapter lead
shapes follow the scraper interfaces; the handler then pushes explicit
field subsets (JustDial/IndiaMART/Yelp contribute no `website`; IndiaMART
no rating or review count).  The summary is modelled on the
store-unavailable path (`mongoose.connection.readyState !== 1`), where the
save loop is skipped and `saved`/`hotLeads`/`duplicates` stay `0`.
-/

inductive Settled (α : Type) where
  | fulfilled (value : α)
  | rejected (reason : String)
deriving DecidableEq, Repr

def settledList {α : Type} : Settled (List α) → List α
  | .fulfilled v => v
  | .rejected _ => []

/-- `status === 'fulfilled' ? value.length : 0`. -/
def settledCount {α : Type} : Settled (List α) → ℕ
  | .fulfilled v => v.length
  | .rejected _ => 0

/-- `ScrapedLead` (googleMapsScraper.ts, lines 3-20), fields the combined
shape keeps. -/
structure ScrapedLead where
  businessName : String
  fullName : String
  phone : Option String := none
  website : Option String := none
  address : Option String := none
  city : Option String := none
  rating : Option ℚ := none
  reviewCount : Option ℚ := none
  category : Option String := none
deriving DecidableEq, Repr

structure JustDialLead where
  businessName : String
  fullName : String
  phone : Option String := none
  email : Option String := none
  website : Option String := none
  address : Option String := none
  city : Option String := none
  rating : Option ℚ := none
  reviewCount : Option ℚ := none
  category : Option String := none
deriving DecidableEq, Repr

structure IndiaMartLead where
  businessName : String
  fullName : String
  phone : Option String := none
  email : Option String := none
  website : Option String := none
  address : Option String := none
  city : Option String := none
  category : Option String := none
deriving DecidableEq, Repr

structure YelpLead where
  businessName : String
  fullName : String
  phone : Option String := none
  email : Option String := none
  address : Option String := none
  city : Option String := none
  rating : Option ℚ := none
  reviewCount : Option ℚ := none
  category : Option String := none
deriving DecidableEq, Repr

/-- `allLeads.push({ ...lead, source: 'google_maps' })` (line 490). -/
def googleToCombined (l : ScrapedLead) : CombinedLead :=
  { businessName := l.businessName, fullName := l.fullName, phone := l.phone,
    email := none, website := l.website, address := l.address, city := l.city,
    rating := l.rating, reviewCount := l.reviewCount, category := l.category,
    source := "google_maps" }

/-- Explicit field copy for JustDial (lines 500-511): no `website`. -/
def jdToCombined (l : JustDialLead) : CombinedLead :=
  { businessName := l.businessName, fullName := l.fullName, phone := l.phone,
    email := l.email, website := none, address := l.address, city := l.city,
    rating := l.rating, reviewCount := l.reviewCount, category := l.category,
    source := "justdial" }

/-- Explicit field copy for IndiaMART (lines 521-530): no `website`, no
rating, no review count. -/
def imToCombined (l : IndiaMartLead) : CombinedLead :=
  { businessName := l.businessName, fullName := l.fullName, phone := l.phone,
    email := l.email, website := none, address := l.address, city := l.city,
    rating := none, reviewCount := none, category := l.category,
    source := "indiamart" }

/-- Explicit field copy for Yelp (lines 540-551): no `website`. -/
def yelpToCombined (l : YelpLead) : CombinedLead :=
  { businessName := l.businessName, fullName := l.fullName, phone := l.phone,
    email := l.email, website := none, address := l.address, city := l.city,
    rating := l.rating, reviewCount := l.reviewCount, category := l.category,
    source := "yelp" }

/-- A fulfilled adapter's `forEach(push)` onto the accumulator. -/
def pushSettled {α : Type} (acc : List CombinedLead) (o : Settled (List α))
    (f : α → CombinedLead) : List CombinedLead :=
  (settledList o).foldl (fun a l => a ++ [f l]) acc

/-- Lines 485-556: the combined working list, built by four sequential
`forEach(push)` blocks guarded on each adapter's settled status. -/
def combineAllLeads (g : Settled (List ScrapedLead)) (jd : Settled (List JustDialLead))
    (im : Settled (List IndiaMartLead)) (y : Settled (List YelpLead)) :
    List CombinedLead :=
  pushSettled (pushSettled (pushSettled (pushSettled [] g googleToCombined)
    jd jdToCombined) im imToCombined) y yelpToCombined

structure AllSourcesData where
  sources : List (String × ℕ)
  totalScraped : ℕ
  uniqueCount : ℕ
  saved : ℕ
  hotLeads : ℕ
  duplicates : ℕ
  leads : List CombinedLead
deriving DecidableEq, Repr

/-- The response of `POST /api/scraper/all-sources` (lines 637-652) on the
store-unavailable path.  Note the `sources` object enumerates only
`googleMaps`, `justDial` and `indiaMART` (lines 640-644). -/
def allSourcesResponse (g : Settled (List ScrapedLead)) (jd : Settled (List JustDialLead))
    (im : Settled (List IndiaMartLead)) (y : Settled (List YelpLead)) : AllSourcesData :=
  let all := combineAllLeads g jd im y
  let uniq := uniqueLeads all
  { sources := [("googleMaps", settledCount g), ("justDial", settledCount jd),
      ("indiaMART", settledCount im)],
    totalScraped := all.length,
    uniqueCount := uniq.length,
    saved := 0, hotLeads := 0, duplicates := 0,
    leads := uniq }

/-! ## Supporting lemmas: quota guard -/

theorem check_as_quotaStep (limit : ℕ) (today : String) (st : QuotaState) :
    checkAndIncrementDailyLimit limit today st =
      quotaStep limit ⟨today, effCount today st⟩ := by
  unfold checkAndIncrementDailyLimit effCount
  by_cases hd : today = st.dailyWindowDate
  · rw [if_neg (by simp [hd]), if_pos hd.symm]
    cases st
    simp_all
  · rw [if_pos (by simp [hd]), if_neg (fun hh => hd hh.symm)]

theorem check_eq_of_eff_lt (limit : ℕ) (today : String) (st : QuotaState)
    (h : effCount today st < limit) :
    checkAndIncrementDailyLimit limit today st = (true, ⟨today, effCount today st + 1⟩) := by
  rw [check_as_quotaStep]
  unfold quotaStep
  rw [if_neg (by simp; omega)]

theorem check_eq_of_eff_ge (limit : ℕ) (today : String) (st : QuotaState)
    (h : limit ≤ effCount today st) :
    checkAndIncrementDailyLimit limit today st = (false, ⟨today, effCount today st⟩) := by
  rw [check_as_quotaStep]
  unfold quotaStep
  rw [if_pos (by simpa using h)]

/-- Exact count of `true` answers over `n` same-day calls. -/
theorem quotaRun_trues (limit : ℕ) (today : String) :
    ∀ (n : ℕ) (st : QuotaState),
      (quotaRun limit today st n).1 = min n (limit - effCount today st) := by
  intro n
  induction n with
  | zero => intro st; simp [quotaRun]
  | succ n ih =>
    intro st
    by_cases h : effCount today st < limit
    · rw [quotaRun, check_eq_of_eff_lt limit today st h]
      simp only [ih]
      have he : effCount today (⟨today, effCount today st + 1⟩ : QuotaState) =
          effCount today st + 1 := by
        simp [effCount]
      rw [he]
      simp only [if_true]
      omega
    · push_neg at h
      rw [quotaRun, check_eq_of_eff_ge limit today st h]
      simp only [ih]
      have he : effCount today (⟨today, effCount today st⟩ : QuotaState) =
          effCount today st := by
        simp [effCount]
      rw [he]
      simp only [Bool.false_eq_true, if_false]
      omega

/-- One guard call preserves `count ≤ limit`. -/
theorem check_preserves_le (limit : ℕ) (today : String) (st : QuotaState)
    (h : st.dailyRequestCount ≤ limit) :
    ((checkAndIncrementDailyLimit limit today st).2).dailyRequestCount ≤ limit := by
  have hle : effCount today st ≤ st.dailyRequestCount := by
    unfold effCount
    split <;> omega
  by_cases hc : effCount today st < limit
  · rw [check_eq_of_eff_lt limit today st hc]
    simp
    omega
  · push_neg at hc
    rw [check_eq_of_eff_ge limit today st hc]
    simp
    omega

theorem quotaRun_count_le (limit : ℕ) (today : String) :
    ∀ (n : ℕ) (st : QuotaState), st.dailyRequestCount ≤ limit →
      (((quotaRun limit today st n).2)).dailyRequestCount ≤ limit := by
  intro n
  induction n with
  | zero => intro st h; simpa [quotaRun] using h
  | succ n ih =>
    intro st h
    rw [quotaRun]
    exact ih _ (check_preserves_le limit today st h)

/-! ## Supporting lemmas: retry loop -/

theorem retryLoopAux_le (responses : ℕ → FetchOutcome) :
    ∀ (rem attempt : ℕ), (retryLoopAux responses attempt rem).1 ≤ rem + 1 := by
  intro rem
  induction rem with
  | zero =>
    intro attempt
    unfold retryLoopAux
    match responses attempt with
    | .ok b => simp
    | .rateLimited => simp
    | .httpError s => simp
  | succ rem ih =>
    intro attempt
    unfold retryLoopAux
    match responses attempt with
    | .ok b => simp
    | .rateLimited =>
      have := ih (attempt + 1)
      simp only []
      omega
    | .httpError s => simp

theorem retryLoopAux_all429 :
    ∀ (rem attempt : ℕ),
      retryLoopAux (fun _ => FetchOutcome.rateLimited) attempt rem =
        (rem + 1, Except.error 429) := by
  intro rem
  induction rem with
  | zero => intro attempt; rfl
  | succ rem ih =>
    intro attempt
    unfold retryLoopAux
    simp only [ih (attempt + 1)]

/-! ## Claim C4 — quota guard preserves the per-day cap -/

/-- C4: starting from any state, at most `limit` calls within one UTC day
answer `true`; from a state respecting the cap the stored count never
exceeds `limit`; a guard holding `count = limit` on its stored day answers
`false` and leaves the state unchanged; the first call on a different day
resets the count, stores the new day, and answers `true` (for a positive
configured limit). -/
theorem quota_guard_daily_cap (limit : ℕ) (today d2 : String) (st : QuotaState) (n : ℕ) :
    (quotaRun limit today st n).1 ≤ limit
    ∧ (st.dailyRequestCount ≤ limit →
        ((quotaRun limit today st n).2).dailyRequestCount ≤ limit)
    ∧ (st.dailyRequestCount = limit → st.dailyWindowDate = today →
        checkAndIncrementDailyLimit limit today st = (false, st))
    ∧ (st.dailyWindowDate ≠ d2 → 0 < limit →
        checkAndIncrementDailyLimit limit d2 st = (true, ⟨d2, 1⟩)) := by
  refine ⟨?_, ?_, ?_, ?_⟩
  · rw [quotaRun_trues]
    omega
  · exact quotaRun_count_le limit today n st
  · intro hc hd
    obtain ⟨day, count⟩ := st
    simp only at hc hd
    subst hd
    subst hc
    have he : effCount day (⟨day, count⟩ : QuotaState) = count := by
      simp [effCount]
    rw [check_eq_of_eff_ge count day ⟨day, count⟩ (le_of_eq he.symm), he]
  · intro hne hl
    have he : effCount d2 st = 0 := by
      unfold effCount
      rw [if_neg hne]
    rw [check_eq_of_eff_lt limit d2 st (by omega), he]

theorem quota_guard_daily_cap_witness :
    checkAndIncrementDailyLimit 2 "2026-10-10" ⟨"2026-10-10", 2⟩ = (false, ⟨"2026-10-10", 2⟩)
    ∧ checkAndIncrementDailyLimit 2 "2026-10-11" ⟨"2026-10-10", 2⟩ = (true, ⟨"2026-10-11", 1⟩)
    ∧ (quotaRun 2 "2026-10-10" ⟨"2026-10-10", 0⟩ 5).1 ≤ 2 := by
  have h1 := quota_guard_daily_cap 2 "2026-10-10" "2026-10-11" ⟨"2026-10-10", 2⟩ 5
  have h2 := quota_guard_daily_cap 2 "2026-10-10" "2026-10-11" ⟨"2026-10-10", 0⟩ 5
  exact ⟨h1.2.2.1 rfl rfl, h1.2.2.2 (by decide) (by decide), h2.1⟩

/-! ## Claim C5 — at most `maxRetries + 1` requests under rate limiting -/

/-- C5: the retry loop issues at most `maxRetries + 1` requests for any
service behaviour, exactly `maxRetries + 1` under consecutive 429s (ending
in failure), and a whole `analyzeLead` call never issues more than
`maxRetries + 1` requests. -/
theorem retry_attempts_bound (maxRetries : ℕ) :
    (∀ responses, (retryLoop maxRetries responses).1 ≤ maxRetries + 1)
    ∧ retryLoop maxRetries (fun _ => FetchOutcome.rateLimited) =
        (maxRetries + 1, Except.error 429)
    ∧ (∀ cfg today st ld responses,
        (analyzeLead cfg today st ld responses).requests ≤ cfg.maxRetries + 1) := by
  refine ⟨?_, ?_, ?_⟩
  · intro responses
    exact retryLoopAux_le responses maxRetries 0
  · exact retryLoopAux_all429 maxRetries 0
  · intro cfg today st ld responses
    have hb := retryLoopAux_le responses cfg.maxRetries 0
    unfold analyzeLead
    split
    · simp
    · split
      · simp
      · split
        · simpa [retryLoop] using hb
        · simpa [retryLoop] using hb
        · split
          · simpa [retryLoop] using hb
          · split
            · simpa [retryLoop] using hb
            · simpa [retryLoop] using hb

/-! ## Supporting lemmas: heuristic fallback fields -/

theorem isHotHeur_iff (r c : ℚ) (w : Bool) :
    isHotHeur r c w = true ↔ 4 ≤ r ∧ 50 ≤ c ∧ w = false := by
  simp [isHotHeur, and_assoc]

theorem scoreOf_heuristic (r c : ℚ) (w : Bool) :
    scoreOf (heuristicFallbackJson r c w) = some (if isHotHeur r c w then 85 else 60) := by
  cases hw : isHotHeur r c w <;>
    simp [heuristicFallbackJson, hw, scoreOf, Json.getField, lookupLastField,
      Json.asNum, jstrs]

theorem probOf_heuristic (r c : ℚ) (w : Bool) :
    probOf (heuristicFallbackJson r c w) = some (if isHotHeur r c w then 40 else 15) := by
  cases hw : isHotHeur r c w <;>
    simp [heuristicFallbackJson, hw, probOf, Json.getField, lookupLastField,
      Json.asNum, jstrs]

theorem leadTypeOf_heuristic (r c : ℚ) (w : Bool) :
    leadTypeOf (heuristicFallbackJson r c w) =
      some (if isHotHeur r c w then "hot" else if w then "warm" else "cold") := by
  cases hw : isHotHeur r c w <;> cases w <;>
    simp [heuristicFallbackJson, hw, leadTypeOf, Json.getField, lookupLastField,
      Json.asStr, jstrs]

/-! ## Claim C6 — the deterministic heuristic fallback -/

/-- C6: the fallback is a pure function of `(rating, reviewCount,
hasWebsite)` with absent rating/review count read as `0`; it classifies
`hot` exactly when rating ≥ 4 ∧ reviews ≥ 50 ∧ no website, otherwise `warm`
exactly when a website exists, else `cold`; score is 85/60 and conversion
probability 40/15 accordingly. -/
theorem heuristic_fallback_pure_classification (ld : LeadData) :
    fallbackFor ld =
      heuristicFallbackJson (ld.rating.getD 0) (ld.reviewCount.getD 0) (truthyStr ld.website)
    ∧ (∀ (r c : ℚ) (w : Bool),
        (leadTypeOf (heuristicFallbackJson r c w) = some "hot" ↔
          4 ≤ r ∧ 50 ≤ c ∧ w = false)
        ∧ (leadTypeOf (heuristicFallbackJson r c w) = some "warm" ↔
          ¬(4 ≤ r ∧ 50 ≤ c ∧ w = false) ∧ w = true)
        ∧ (leadTypeOf (heuristicFallbackJson r c w) = some "cold" ↔
          ¬(4 ≤ r ∧ 50 ≤ c ∧ w = false) ∧ w = false)
        ∧ scoreOf (heuristicFallbackJson r c w) =
            some (if isHotHeur r c w then 85 else 60)
        ∧ probOf (heuristicFallbackJson r c w) =
            some (if isHotHeur r c w then 40 else 15)
        ∧ (isHotHeur r c w = true ↔ 4 ≤ r ∧ 50 ≤ c ∧ w = false)) := by
  refine ⟨rfl, ?_⟩
  intro r c w
  have htype := leadTypeOf_heuristic r c w
  have hiff := isHotHeur_iff r c w
  refine ⟨?_, ?_, ?_, scoreOf_heuristic r c w, probOf_heuristic r c w, hiff⟩
  · rw [htype]
    cases hw : isHotHeur r c w
    · rw [hw] at hiff
      simp only [Bool.false_eq_true, false_iff] at hiff
      cases w <;> simp_all
    · rw [hw] at hiff
      simp only [true_iff] at hiff
      simp [hiff]
  · rw [htype]
    cases hw : isHotHeur r c w
    · rw [hw] at hiff
      simp only [Bool.false_eq_true, false_iff] at hiff
      cases w <;> simp_all
    · rw [hw] at hiff
      simp only [true_iff] at hiff
      have : ¬(4 ≤ r ∧ 50 ≤ c ∧ w = false) ∧ w = true ↔ False := by
        simp [hiff]
      simp [this, hiff]
  · rw [htype]
    cases hw : isHotHeur r c w
    · rw [hw] at hiff
      simp only [Bool.false_eq_true, false_iff] at hiff
      cases w <;> simp_all
    · rw [hw] at hiff
      simp only [true_iff] at hiff
      simp [hiff]

theorem heuristic_fallback_pure_classification_witness :
    leadTypeOf (heuristicFallbackJson 4.5 80 false) = some "hot"
    ∧ scoreOf (heuristicFallbackJson 4.5 80 false) = some 85
    ∧ fallbackFor { businessName := "B", rating := some 4.5, reviewCount := some 80 } =
        heuristicFallbackJson 4.5 80 false := by
  have h := heuristic_fallback_pure_classification
    { businessName := "B", rating := some 4.5, reviewCount := some 80 }
  refine ⟨(h.2 4.5 80 false).1.mpr ⟨by norm_num, by norm_num, rfl⟩, ?_, by simpa using h.1⟩
  have hs := (h.2 4.5 80 false).2.2.2.1
  rw [hs]
  have hh : isHotHeur 4.5 80 false = true := by
    rw [isHotHeur_iff]
    exact ⟨by norm_num, by norm_num, rfl⟩
  rw [hh]
  simp

/-! ## Supporting lemmas: deduplication -/

theorem contains_iff_mem (xs : List String) (a : String) :
    xs.contains a = true ↔ a ∈ xs := by
  simp [List.contains]

theorem phoneDup_false (p : List String) (l : CombinedLead)
    (h : phoneDup p l = false) : phoneKey l ≠ "" → phoneKey l ∉ p := by
  intro hne hm
  have : phoneDup p l = true := by
    simp [phoneDup, hne]
    exact hm
  rw [h] at this
  cases this

theorem nameDup_false (n : List String) (l : CombinedLead)
    (h : nameDup n l = false) : nameKey l ∉ n := by
  intro hm
  have : nameDup n l = true := (contains_iff_mem n (nameKey l)).2 hm
  rw [h] at this
  cases this

theorem uniqueLeadsAux_sublist :
    ∀ (ls : List CombinedLead) (p n : List String),
      (uniqueLeadsAux p n ls).Sublist ls := by
  intro ls
  induction ls with
  | nil => intro p n; simp [uniqueLeadsAux]
  | cons l ls ih =>
    intro p n
    rw [uniqueLeadsAux]
    split
    · exact (ih p n).cons l
    · split
      · exact (ih p n).cons l
      · exact (ih _ _).cons₂ l

/-- Every survivor's keys are absent from the starting seen-sets. -/
theorem uniqueLeadsAux_keys :
    ∀ (ls : List CombinedLead) (p n : List String) (x : CombinedLead),
      x ∈ uniqueLeadsAux p n ls →
      nameKey x ∉ n ∧ (phoneKey x ≠ "" → phoneKey x ∉ p) := by
  intro ls
  induction ls with
  | nil => intro p n x hx; simp [uniqueLeadsAux] at hx
  | cons l ls ih =>
    intro p n x hx
    rw [uniqueLeadsAux] at hx
    split at hx
    · exact ih p n x hx
    · split at hx
      · exact ih p n x hx
      · rename_i h1 h2
        rcases List.mem_cons.1 hx with hxl | hxm
        · subst hxl
          exact ⟨nameDup_false n x (Bool.not_eq_true _ ▸ h2),
            phoneDup_false p x (Bool.not_eq_true _ ▸ h1)⟩
        · obtain ⟨hn, hp⟩ := ih _ _ x hxm
          refine ⟨fun hm => hn (List.mem_cons_of_mem _ hm), fun hne hm => hp hne ?_⟩
          unfold addPhone
          split
          · exact List.mem_cons_of_mem _ hm
          · exact hm

/-- C3 part: surviving candidates have pairwise distinct case-folded
names. -/
theorem uniqueLeadsAux_names_pairwise :
    ∀ (ls : List CombinedLead) (p n : List String),
      (uniqueLeadsAux p n ls).Pairwise (fun a b => nameKey a ≠ nameKey b) := by
  intro ls
  induction ls with
  | nil => intro p n; simp [uniqueLeadsAux]
  | cons l ls ih =>
    intro p n
    rw [uniqueLeadsAux]
    split
    · exact ih p n
    · split
      · exact ih p n
      · refine List.Pairwise.cons ?_ (ih _ _)
        intro b hb
        have := (uniqueLeadsAux_keys ls _ _ b hb).1
        intro he
        exact this (he ▸ List.mem_cons_self _ _)

/-- C3 part: surviving candidates have pairwise distinct non-empty
normalized phones. -/
theorem uniqueLeadsAux_phones_pairwise :
    ∀ (ls : List CombinedLead) (p n : List String),
      (uniqueLeadsAux p n ls).Pairwise
        (fun a b => phoneKey a ≠ "" → phoneKey b ≠ phoneKey a) := by
  intro ls
  induction ls with
  | nil => intro p n; simp [uniqueLeadsAux]
  | cons l ls ih =>
    intro p n
    rw [uniqueLeadsAux]
    split
    · exact ih p n
    · split
      · exact ih p n
      · refine List.Pairwise.cons ?_ (ih _ _)
        intro b hb hlne he
        have hbp := (uniqueLeadsAux_keys ls _ _ b hb).2
        have hbne : phoneKey b ≠ "" := by rw [he]; exact hlne
        apply hbp hbne
        unfold addPhone
        rw [if_pos hlne, he]
        exact List.mem_cons_self _ _

/-- C3 part: a candidate with no earlier same-name or same-non-empty-phone
candidate survives the pass. -/
theorem uniqueLeadsAux_earliest :
    ∀ (pre : List CombinedLead) (x : CombinedLead) (post : List CombinedLead)
      (p n : List String),
      nameKey x ∉ n → (phoneKey x ≠ "" → phoneKey x ∉ p) →
      (∀ y ∈ pre, nameKey y ≠ nameKey x ∧
        (phoneKey x ≠ "" → phoneKey y ≠ phoneKey x)) →
      x ∈ uniqueLeadsAux p n (pre ++ x :: post) := by
  intro pre
  induction pre with
  | nil =>
    intro x post p n hn hp _
    rw [List.nil_append, uniqueLeadsAux]
    rw [if_neg ?hc1, if_neg ?hc2]
    · exact List.mem_cons_self _ _
    case hc1 =>
      intro hc
      simp only [phoneDup, Bool.and_eq_true, decide_eq_true_eq] at hc
      exact hp hc.1 ((contains_iff_mem _ _).1 hc.2)
    case hc2 =>
      intro hc
      exact hn ((contains_iff_mem _ _).1 hc)
  | cons y pre ih =>
    intro x post p n hn hp hpre
    have hy := hpre y (List.mem_cons_self y pre)
    have hrest : ∀ z ∈ pre, nameKey z ≠ nameKey x ∧
        (phoneKey x ≠ "" → phoneKey z ≠ phoneKey x) :=
      fun z hz => hpre z (List.mem_cons_of_mem _ hz)
    rw [List.cons_append, uniqueLeadsAux]
    split
    · exact ih x post p n hn hp hrest
    · split
      · exact ih x post p n hn hp hrest
      · refine List.mem_cons_of_mem _ (ih x post _ _ ?_ ?_ hrest)
        · intro hm
          rcases List.mem_cons.1 hm with he | hm2
          · exact hy.1 he.symm
          · exact hn hm2
        · intro hne hm
          unfold addPhone at hm
          split at hm
          · rcases List.mem_cons.1 hm with he | hm2
            · exact hy.2 hne he.symm
            · exact hp hne hm2
          · exact hp hne hm

/-- Idempotence of the filter, relative to any starting seen-sets. -/
theorem uniqueLeadsAux_idem :
    ∀ (ls : List CombinedLead) (p n : List String),
      uniqueLeadsAux p n (uniqueLeadsAux p n ls) = uniqueLeadsAux p n ls := by
  intro ls
  induction ls with
  | nil => intro p n; simp [uniqueLeadsAux]
  | cons l ls ih =>
    intro p n
    by_cases h1 : phoneDup p l = true
    · rw [uniqueLeadsAux, if_pos h1, ih]
    · by_cases h2 : nameDup n l = true
      · rw [uniqueLeadsAux, if_neg (by simp [h1]), if_pos h2, ih]
      · rw [uniqueLeadsAux, if_neg (by simp [h1]), if_neg (by simp [h2])]
        rw [uniqueLeadsAux, if_neg (by simp [h1]), if_neg (by simp [h2]), ih]

/-! ## Claim C3 — intra-batch deduplication -/

def demoCafeA : CombinedLead :=
  { businessName := "Cafe A", fullName := "Cafe A", phone := some "555-0100",
    source := "google_maps" }

def demoCafeA2 : CombinedLead :=
  { businessName := "cafe a", fullName := "cafe a", phone := some "",
    source := "justdial" }

/-- C3: in one linear pass, survivors have pairwise distinct case-folded
names and pairwise distinct non-empty digits-only phones; relative order is
preserved (the output is a sublist of the input); a candidate with no
earlier colliding candidate survives; and the two-entry cafe batch keeps
exactly its first entry. -/
theorem uniqueLeads_dedup_spec (ls : List CombinedLead) :
    (uniqueLeads ls).Sublist ls
    ∧ (uniqueLeads ls).Pairwise (fun a b => nameKey a ≠ nameKey b)
    ∧ (uniqueLeads ls).Pairwise
        (fun a b => phoneKey a ≠ "" → phoneKey b ≠ phoneKey a)
    ∧ (∀ pre x post, ls = pre ++ x :: post →
        (∀ y ∈ pre, nameKey y ≠ nameKey x ∧
          (phoneKey x ≠ "" → phoneKey y ≠ phoneKey x)) →
        x ∈ uniqueLeads ls)
    ∧ uniqueLeads [demoCafeA, demoCafeA2] = [demoCafeA] := by
  refine ⟨uniqueLeadsAux_sublist ls [] [],
    uniqueLeadsAux_names_pairwise ls [] [],
    uniqueLeadsAux_phones_pairwise ls [] [], ?_, by decide⟩
  intro pre x post hsplit hpre
  rw [hsplit]
  exact uniqueLeadsAux_earliest pre x post [] []
    (List.not_mem_nil _) (fun _ => List.not_mem_nil _) hpre

theorem uniqueLeads_dedup_spec_witness :
    uniqueLeads [demoCafeA, demoCafeA2] = [demoCafeA]
    ∧ demoCafeA ∈ uniqueLeads [demoCafeA, demoCafeA2]
    ∧ (uniqueLeads [demoCafeA, demoCafeA2]).Sublist [demoCafeA, demoCafeA2] := by
  have h := uniqueLeads_dedup_spec [demoCafeA, demoCafeA2]
  exact ⟨h.2.2.2.2,
    h.2.2.2.1 [] demoCafeA [demoCafeA2] rfl (by intro y hy; cases hy),
    h.1⟩

/-! ## Claim C9 — deduplication is idempotent -/

/-- C9: applying the deduplication filter to its own output returns the
output unchanged. -/
theorem uniqueLeads_idempotent (ls : List CombinedLead) :
    uniqueLeads (uniqueLeads ls) = uniqueLeads ls :=
  uniqueLeadsAux_idem ls [] []

/-! ## Supporting lemmas: all-sources orchestration -/

theorem foldl_push_eq {α : Type} (f : α → CombinedLead) :
    ∀ (xs : List α) (acc : List CombinedLead),
      xs.foldl (fun a l => a ++ [f l]) acc = acc ++ xs.map f := by
  intro xs
  induction xs with
  | nil => intro acc; simp
  | cons x xs ih => intro acc; simp [ih]

theorem pushSettled_eq {α : Type} (acc : List CombinedLead) (o : Settled (List α))
    (f : α → CombinedLead) : pushSettled acc o f = acc ++ (settledList o).map f := by
  unfold pushSettled
  exact foldl_push_eq f (settledList o) acc

theorem combineAllLeads_eq (g : Settled (List ScrapedLead))
    (jd : Settled (List JustDialLead)) (im : Settled (List IndiaMartLead))
    (y : Settled (List YelpLead)) :
    combineAllLeads g jd im y =
      (settledList g).map googleToCombined ++ (settledList jd).map jdToCombined ++
      (settledList im).map imToCombined ++ (settledList y).map yelpToCombined := by
  unfold combineAllLeads
  rw [pushSettled_eq, pushSettled_eq, pushSettled_eq, pushSettled_eq]
  simp [List.append_assoc]

/-! ## Claim C10 — settle-all adapter isolation (amended) -/

/-- C10 (amended): the working list is exactly the concatenation of the
successful adapters' candidates in adapter order, each tagged with its
origin source; a failed adapter contributes the empty list; the summary is
always produced, its per-source counts report Google Maps, JustDial and
IndiaMART (a failed one as 0) — but contain no entry for Yelp at all. -/
theorem all_sources_settle_isolation (g : Settled (List ScrapedLead))
    (jd : Settled (List JustDialLead)) (im : Settled (List IndiaMartLead))
    (y : Settled (List YelpLead)) :
    combineAllLeads g jd im y =
      (settledList g).map googleToCombined ++ (settledList jd).map jdToCombined ++
      (settledList im).map imToCombined ++ (settledList y).map yelpToCombined
    ∧ (∀ l ∈ combineAllLeads g jd im y,
        l.source = "google_maps" ∨ l.source = "justdial" ∨
        l.source = "indiamart" ∨ l.source = "yelp")
    ∧ (allSourcesResponse g jd im y).sources.lookup "googleMaps" = some (settledCount g)
    ∧ (allSourcesResponse g jd im y).sources.lookup "justDial" = some (settledCount jd)
    ∧ (allSourcesResponse g jd im y).sources.lookup "indiaMART" = some (settledCount im)
    ∧ (allSourcesResponse g jd im y).sources.lookup "yelp" = none
    ∧ (∀ r, g = Settled.rejected r →
        settledList g = ([] : List ScrapedLead) ∧ settledCount g = 0)
    ∧ (∀ r, y = Settled.rejected r →
        settledList y = ([] : List YelpLead) ∧ settledCount y = 0)
    ∧ (allSourcesResponse g jd im y).totalScraped = (combineAllLeads g jd im y).length
    ∧ (allSourcesResponse g jd im y).leads = uniqueLeads (combineAllLeads g jd im y) := by
  refine ⟨combineAllLeads_eq g jd im y, ?_, rfl, rfl, rfl, rfl,
    ?_, ?_, rfl, rfl⟩
  · intro l hl
    rw [combineAllLeads_eq] at hl
    rcases List.mem_append.1 hl with h3 | hy
    · rcases List.mem_append.1 h3 with h2 | him
      · rcases List.mem_append.1 h2 with hg | hjd
        · obtain ⟨x, _, rfl⟩ := List.mem_map.1 hg
          exact Or.inl rfl
        · obtain ⟨x, _, rfl⟩ := List.mem_map.1 hjd
          exact Or.inr (Or.inl rfl)
      · obtain ⟨x, _, rfl⟩ := List.mem_map.1 him
        exact Or.inr (Or.inr (Or.inl rfl))
    · obtain ⟨x, _, rfl⟩ := List.mem_map.1 hy
      exact Or.inr (Or.inr (Or.inr rfl))
  · intro r h
    rw [h]
    exact ⟨rfl, rfl⟩
  · intro r h
    rw [h]
    exact ⟨rfl, rfl⟩

def c10Google : Settled (List ScrapedLead) :=
  Settled.fulfilled
    [{ businessName := "Cafe A", fullName := "Cafe A", phone := some "555-0100" }]

def c10Yelp : Settled (List YelpLead) := Settled.rejected "network error"

/-- C10 counterexample to the claim as stated: with the Yelp adapter
failed, the summary's per-source counts hold no `yelp` entry at all, in
particular not a `0` count. -/
theorem all_sources_yelp_unreported :
    (allSourcesResponse c10Google (Settled.fulfilled []) (Settled.rejected "x")
        c10Yelp).sources.lookup "yelp" = none
    ∧ ¬ ((allSourcesResponse c10Google (Settled.fulfilled []) (Settled.rejected "x")
        c10Yelp).sources.lookup "yelp" = some 0)
    ∧ c10Yelp = Settled.rejected "network error" := by
  exact ⟨rfl, fun hh => Option.noConfusion hh, rfl⟩

theorem all_sources_settle_isolation_witness :
    (allSourcesResponse c10Google (Settled.fulfilled []) (Settled.rejected "x")
        c10Yelp).sources.lookup "googleMaps" = some 1
    ∧ settledList (Settled.rejected "x" : Settled (List IndiaMartLead)) = []
    ∧ settledList c10Yelp = [] := by
  have h := all_sources_settle_isolation c10Google (Settled.fulfilled [])
    (Settled.rejected "x") c10Yelp
  refine ⟨?_, rfl, (h.2.2.2.2.2.2.2.1 "network error" rfl).1⟩
  have hg := h.2.2.1
  simpa [show settledCount c10Google = 1 from rfl] using hg

/-! ## Supporting lemmas: analyzeLead case analysis -/

/-- Every `analyzeLead` result is the not-configured analysis, the
deterministic heuristic fallback, or the parsed reply passed through. -/
theorem analyzeLead_cases (cfg : SambaConfig) (today : String) (st : QuotaState)
    (ld : LeadData) (responses : ℕ → FetchOutcome) :
    (analyzeLead cfg today st ld responses).analysis = notConfiguredAnalysis
    ∨ (analyzeLead cfg today st ld responses).analysis = fallbackFor ld
    ∨ ∃ raw, (retryLoop cfg.maxRetries responses).2 = Except.ok (some raw)
        ∧ raw ≠ ""
        ∧ extractJSON raw.data =
            Except.ok ((analyzeLead cfg today st ld responses).analysis) := by
  unfold analyzeLead
  split
  · exact Or.inl rfl
  · split
    · exact Or.inr (Or.inl rfl)
    · split
      · exact Or.inr (Or.inl rfl)
      · exact Or.inr (Or.inl rfl)
      · rename_i raw hloop
        split
        · exact Or.inr (Or.inl rfl)
        · rename_i hraw
          split
          · exact Or.inr (Or.inl rfl)
          · rename_i j hparse
            exact Or.inr (Or.inr ⟨raw, hloop, hraw, by simpa using hparse⟩)

/-! ## Claim C2 — enrichment never raises -/

/-- C2: `analyzeLead` is total and returns a complete analysis under every
external behaviour; the missing-credential branch returns the
zero-confidence analysis without touching the quota; every other internal
failure — quota exhausted, non-success responses or retry exhaustion,
missing/empty body, and a reply failing both the direct and the repaired
parse — returns the deterministic heuristic fallback. -/
theorem analyzeLead_never_raises (cfg : SambaConfig) (today : String) (st : QuotaState)
    (ld : LeadData) (responses : ℕ → FetchOutcome) :
    ((analyzeLead cfg today st ld responses).analysis = notConfiguredAnalysis
      ∨ (analyzeLead cfg today st ld responses).analysis = fallbackFor ld
      ∨ ∃ raw, (retryLoop cfg.maxRetries responses).2 = Except.ok (some raw)
          ∧ extractJSON raw.data =
              Except.ok ((analyzeLead cfg today st ld responses).analysis))
    ∧ (cfg.apiKey = "" →
        analyzeLead cfg today st ld responses = ⟨notConfiguredAnalysis, st, 0⟩)
    ∧ (cfg.apiKey ≠ "" →
        (checkAndIncrementDailyLimit cfg.dailyLimit today st).1 = false →
        (analyzeLead cfg today st ld responses).analysis = fallbackFor ld)
    ∧ (cfg.apiKey ≠ "" →
        (checkAndIncrementDailyLimit cfg.dailyLimit today st).1 = true →
        ∀ e, (retryLoop cfg.maxRetries responses).2 = Except.error e →
        (analyzeLead cfg today st ld responses).analysis = fallbackFor ld)
    ∧ (cfg.apiKey ≠ "" →
        (checkAndIncrementDailyLimit cfg.dailyLimit today st).1 = true →
        (retryLoop cfg.maxRetries responses).2 = Except.ok none →
        (analyzeLead cfg today st ld responses).analysis = fallbackFor ld)
    ∧ (cfg.apiKey ≠ "" →
        (checkAndIncrementDailyLimit cfg.dailyLimit today st).1 = true →
        (retryLoop cfg.maxRetries responses).2 = Except.ok (some "") →
        (analyzeLead cfg today st ld responses).analysis = fallbackFor ld)
    ∧ (∀ raw e, cfg.apiKey ≠ "" →
        (checkAndIncrementDailyLimit cfg.dailyLimit today st).1 = true →
        (retryLoop cfg.maxRetries responses).2 = Except.ok (some raw) → raw ≠ "" →
        extractJSON raw.data = Except.error e →
        (analyzeLead cfg today st ld responses).analysis = fallbackFor ld) := by
  refine ⟨?_, ?_, ?_, ?_, ?_, ?_, ?_⟩
  · rcases analyzeLead_cases cfg today st ld responses with h | h | ⟨raw, h1, h2, h3⟩
    · exact Or.inl h
    · exact Or.inr (Or.inl h)
    · exact Or.inr (Or.inr ⟨raw, h1, h3⟩)
  · intro hk
    unfold analyzeLead
    rw [if_pos hk]
  · intro hk hq
    unfold analyzeLead
    rw [if_neg hk, if_pos hq]
  · intro hk hq e he
    unfold analyzeLead
    rw [if_neg hk, if_neg (by rw [hq]; simp), he]
  · intro hk hq he
    unfold analyzeLead
    rw [if_neg hk, if_neg (by rw [hq]; simp), he]
  · intro hk hq he
    unfold analyzeLead
    rw [if_neg hk, if_neg (by rw [hq]; simp), he]
    simp
  · intro raw e hk hq hloop hraw hparse
    unfold analyzeLead
    rw [if_neg hk, if_neg (by rw [hq]; simp), hloop]
    simp only [if_neg hraw]
    rw [hparse]

def c2Lead : LeadData :=
  { businessName := "Corner Bakery", rating := some 3, reviewCount := some 10,
    website := some "https://bakery.example" }

theorem analyzeLead_never_raises_witness :
    (analyzeLead {} "2026-10-11" ⟨"2026-10-11", 0⟩ c2Lead
        (fun _ => FetchOutcome.rateLimited)).analysis = fallbackFor c2Lead := by
  have h := analyzeLead_never_raises {} "2026-10-11" ⟨"2026-10-11", 0⟩ c2Lead
    (fun _ => FetchOutcome.rateLimited)
  exact h.2.2.2.1 (by decide) rfl 429 rfl

/-! ## Claim C1 (amended) — bounds hold except for the unvalidated
passthrough of a successful external reply -/

/-- C1 (amended): every analysis produced by an internal branch of
`analyzeLead` (missing credential, quota fallback, failure fallback) has
`score` and `conversionProbability` in `[0, 100]` and a `leadType` among
`hot`/`warm`/`cold`; an analysis built from a successful external reply is
the parsed reply returned without any bounds or enumeration validation. -/
theorem analysis_bounds_unless_passthrough (cfg : SambaConfig) (today : String)
    (st : QuotaState) (ld : LeadData) (responses : ℕ → FetchOutcome) :
    (∃ raw, (retryLoop cfg.maxRetries responses).2 = Except.ok (some raw)
        ∧ extractJSON raw.data =
            Except.ok ((analyzeLead cfg today st ld responses).analysis))
    ∨ ((∃ q, scoreOf ((analyzeLead cfg today st ld responses).analysis) = some q
          ∧ 0 ≤ q ∧ q ≤ 100)
        ∧ (∃ q, probOf ((analyzeLead cfg today st ld responses).analysis) = some q
          ∧ 0 ≤ q ∧ q ≤ 100)
        ∧ (∃ s, leadTypeOf ((analyzeLead cfg today st ld responses).analysis) = some s
          ∧ (s = "hot" ∨ s = "warm" ∨ s = "cold"))) := by
  rcases analyzeLead_cases cfg today st ld responses with h | h | ⟨raw, h1, _, h3⟩
  · refine Or.inr ⟨⟨0, ?_, le_refl 0, by norm_num⟩, ⟨0, ?_, le_refl 0, by norm_num⟩,
      ⟨"cold", ?_, Or.inr (Or.inr rfl)⟩⟩
    · rw [h]; rfl
    · rw [h]; rfl
    · rw [h]; rfl
  · rw [h]
    unfold fallbackFor
    refine Or.inr ⟨?_, ?_, ?_⟩
    · have hs := scoreOf_heuristic (ld.rating.getD 0) (ld.reviewCount.getD 0)
        (truthyStr ld.website)
      cases hw : isHotHeur (ld.rating.getD 0) (ld.reviewCount.getD 0)
          (truthyStr ld.website) <;> rw [hw] at hs <;> simp at hs
      · exact ⟨60, hs, by norm_num, by norm_num⟩
      · exact ⟨85, hs, by norm_num, by norm_num⟩
    · have hp := probOf_heuristic (ld.rating.getD 0) (ld.reviewCount.getD 0)
        (truthyStr ld.website)
      cases hw : isHotHeur (ld.rating.getD 0) (ld.reviewCount.getD 0)
          (truthyStr ld.website) <;> rw [hw] at hp <;> simp at hp
      · exact ⟨15, hp, by norm_num, by norm_num⟩
      · exact ⟨40, hp, by norm_num, by norm_num⟩
    · have ht := leadTypeOf_heuristic (ld.rating.getD 0) (ld.reviewCount.getD 0)
        (truthyStr ld.website)
      cases hw : isHotHeur (ld.rating.getD 0) (ld.reviewCount.getD 0)
          (truthyStr ld.website) <;> rw [hw] at ht <;> simp at ht
      · cases hweb : truthyStr ld.website <;> rw [hweb] at ht <;> simp at ht
        · exact ⟨"cold", ht, Or.inr (Or.inr rfl)⟩
        · exact ⟨"warm", ht, Or.inr (Or.inl rfl)⟩
      · exact ⟨"hot", ht, Or.inl rfl⟩
  · exact Or.inl ⟨raw, h1, h3⟩

/-! ## Claim C1 — counterexample: a successful external reply is returned
without bounds or enumeration validation -/

def c1Reply : String := "\x7b\"score\": 150, \"leadType\": \"volcanic\"\x7d"

def c1Lead : LeadData := { businessName := "Biz" }

def c1Analysis : Json :=
  (analyzeLead {} "2026-10-11" ⟨"2026-10-11", 0⟩ c1Lead
    (fun _ => FetchOutcome.ok (some c1Reply))).analysis

/-- C1 counterexample: with the external service replying
`{"score": 150, "leadType": "volcanic"}`, `analyzeLead` returns that
analysis as-is — its score exceeds 100 and its lead type is outside the
`hot`/`warm`/`cold` enumeration, so the reply is neither clamped nor
rejected. -/
theorem analyzeLead_returns_out_of_range_reply :
    scoreOf c1Analysis = some 150
    ∧ ¬ ((150 : ℚ) ≤ 100)
    ∧ leadTypeOf c1Analysis = some "volcanic"
    ∧ ¬ ("volcanic" = "hot" ∨ "volcanic" = "warm" ∨ "volcanic" = "cold") := by
  exact ⟨by decide, by norm_num, by decide, by decide⟩

/-! ## Claim C7 — code bug: the quote-normalization character classes hold
straight quotes -/

def c7Original : String := "\x7b\"score\": 88\x7d"

def c7Corrupted : String := "```json\n\x7b“score”: 88,\x7d\n```"

/-- C7: the original text is valid JSON; on the fence-wrapped, curly-quoted,
trailing-comma variant the normalizer does find the `{` … `}` span and
strips the trailing comma, but — because the replacement classes at lines
68 and 70 contain straight rather than curly quotes (contradicting the
comments directly above them) — the curly quotes survive, both the strict
and the repaired parse fail, and `extractJSON` raises instead of recovering
the object. -/
theorem normalizer_curly_quote_bug :
    jsonParse c7Original.data = Except.ok (Json.obj [("score", Json.num 88)])
    ∧ normalizeJsonLike c7Corrupted.data =
        Except.ok "\x7b“score”: 88\x7d".data
    ∧ extractJSON c7Corrupted.data = Except.error "expected string key" := by
  exact ⟨rfl, rfl, rfl⟩

/-! ## Claim C8 — the normalizer fails exactly on a missing span; otherwise
failure is propagated only when both parses fail -/

/-- C8: `normalizeJsonLike` fails exactly when the stripped text has no
first-`{` … later-last-`}` span; a normalization failure propagates out of
`extractJSON` directly; when normalization succeeds, `extractJSON` is the
strict parse followed (on failure) by one repaired re-parse, and it returns
an error exactly when both parses fail. -/
theorem normalizer_failure_structure (text : List Char) :
    ((∃ e, normalizeJsonLike text = Except.error e) ↔
      ¬ ∃ i j, firstIdxOf (strippedText text) lbrace = some i
          ∧ lastIdxOf (strippedText text) rbrace = some j ∧ i < j)
    ∧ (∀ e, normalizeJsonLike text = Except.error e → extractJSON text = Except.error e)
    ∧ (∀ raw, normalizeJsonLike text = Except.ok raw →
        extractJSON text = (match jsonParse raw with
          | Except.ok j => Except.ok j
          | Except.error _ => jsonParse (repairCommonJsonIssues raw)))
    ∧ (∀ raw e, normalizeJsonLike text = Except.ok raw →
        (extractJSON text = Except.error e ↔
          (∃ e1, jsonParse raw = Except.error e1)
          ∧ jsonParse (repairCommonJsonIssues raw) = Except.error e)) := by
  refine ⟨?_, ?_, ?_, ?_⟩
  · constructor
    · rintro ⟨e, he⟩ ⟨i, j, hi, hj, hij⟩
      unfold normalizeJsonLike at he
      rw [hi, hj] at he
      have he2 : (if j ≤ i then
            (Except.error "No complete JSON block found in LLM response" :
              Except String (List Char))
          else Except.ok (rtcAux (normSingleQuotes (normDoubleQuotes
            (((strippedText text).drop i).take (j + 1 - i)))))) = Except.error e := he
      rw [if_neg (by omega)] at he2
      exact Except.noConfusion he2
    · intro hns
      unfold normalizeJsonLike
      rcases hf : firstIdxOf (strippedText text) lbrace with _ | s
      · exact ⟨_, rfl⟩
      · rcases hl : lastIdxOf (strippedText text) rbrace with _ | e
        · exact ⟨_, rfl⟩
        · have hle : e ≤ s := by
            by_contra hgt
            exact hns ⟨s, e, hf, hl, by omega⟩
          refine ⟨"No complete JSON block found in LLM response", ?_⟩
          show (if e ≤ s then
              (Except.error "No complete JSON block found in LLM response" :
                Except String (List Char))
            else Except.ok (rtcAux (normSingleQuotes (normDoubleQuotes
              (((strippedText text).drop s).take (e + 1 - s)))))) =
            Except.error "No complete JSON block found in LLM response"
          rw [if_pos hle]
  · intro e he
    unfold extractJSON
    rw [he]
  · intro raw hraw
    unfold extractJSON
    rw [hraw]
  · intro raw e hraw
    unfold extractJSON
    rw [hraw]
    rcases hp : jsonParse raw with e1 | j
    · simp [hp]
    · simp [hp]

def c8Text : String := "reply: \x7b\"a\": 1\x7d ok"

def c8NoSpan : String := "no json here"

theorem normalizer_failure_structure_witness :
    extractJSON c8Text.data = Except.ok (Json.obj [("a", Json.num 1)])
    ∧ (∃ e, normalizeJsonLike c8NoSpan.data = Except.error e) := by
  constructor
  · have h := (normalizer_failure_structure c8Text.data).2.2.1
      ("\x7b\"a\": 1\x7d".data) rfl
    rw [h]
    rfl
  · refine ((normalizer_failure_structure c8NoSpan.data).1).mpr ?_
    rintro ⟨i, j, hi, hj, hij⟩
    have hf : firstIdxOf (strippedText c8NoSpan.data) lbrace = none := rfl
    rw [hf] at hi
    cases hi
